import Mathlib

/-!
# Dual-Channel Audio Playback Controller — verification of the spec's claims

Shallow embedding of the playback-control core of the Kryoniq deepfake
detection game (source: `src/src/pages/Game.tsx` and the Express backend).
Each namespace embeds one cluster of source functions:

* `Side`, `RoundSetup`, `RoundData` — the data model (`src/src/types/game.ts`,
  the `RoundSetup` interface in `Game.tsx`).
* `Pre` — the `useNextRoundPreloader` hook (`Game.tsx` lines 305–341).
* `Sel` — the round-selection logic `handleSelect` (`Game.tsx` lines 757–845).
* `Fb` — the `useAudioFallback` hook (`Game.tsx` lines 135–291).
* `PlayM` — the `togglePlay`/`replay` race guard (`Game.tsx` lines 687–755)
  together with the media-element platform contract.
* `Resolver` — the `GET /api/audio-files/:celebrity` endpoint of the backend.

The asynchronous JavaScript is embedded as explicit state machines: each
synchronous segment between `await` points is one atomic step, and pending
continuations are recorded in the state, so a trace of steps covers every
event-loop interleaving of the original code.  The file is laid out as all
definitions first, then all theorems.
-/

/-- One of the two user-facing audio slots; the source writes `'left' | 'right'`. -/
inductive Side where
  | left
  | right
deriving DecidableEq

/-- The opposite side: the `side === 'left' ? …Right : …Left` selections in the source. -/
def Side.other : Side → Side
  | .left => .right
  | .right => .left

/-- One round as the frontend stores it (the `RoundSetup` interface in `Game.tsx`):
the celebrity, the real and the fake audio path, and which side holds the real one. -/
structure RoundSetup where
  celebrityName : String
  realAudio : String
  fakeAudio : String
  realPosition : Side
deriving DecidableEq

/-- One recorded round outcome (the `RoundData` interface in `src/src/types/game.ts`). -/
structure RoundData where
  roundNum : Nat
  celebrity : String
  realAudio : String
  fakeAudio : String
  realPosition : Side
  userChoice : Side
  correct : Bool
  replayCountLeft : Nat
  replayCountRight : Nat
  timeSpent : Nat
deriving DecidableEq

/-! ## Preloader (`useNextRoundPreloader`, Game.tsx lines 305–341)

The hook owns a list of detached audio buffers (`preloadRefs`).  Its effect,
run on every `currentRound` change, first empties the list (setting each
element's `src` to the empty string and unloading it), then — only when a
round exists at index `currentRound + 1` — creates one buffer per channel
of that next round.  Each model buffer carries a ghost `roundIdx` tag naming
the round it was created for, so "buffers of two rounds coexist" is statable. -/

namespace Pre

/-- One detached preload `Audio` object: the ghost round index it was created
for and the source it buffers. -/
structure PreBuffer where
  roundIdx : Nat
  src : String
deriving DecidableEq

/-- The state owned by `useNextRoundPreloader`: the `preloadRefs` list. -/
structure PreState where
  buffers : List PreBuffer
deriving DecidableEq

/-- Lines 310–314 (and the identical effect cleanup, lines 333–339): every
buffer is detached (`el.src = ''; el.load()`) and the list is emptied. -/
def teardown (_st : PreState) : PreState := ⟨[]⟩

/-- Lines 316–331: when a round exists at `currentRound + 1`, push one buffer
per channel for it (left source first, as the source's `[nextLeft, nextRight]`
loop does); otherwise leave the state as it is. -/
def createNext (rounds : List RoundSetup) (currentRound : Nat) (st : PreState) : PreState :=
  let nextIndex := currentRound + 1
  match rounds[nextIndex]? with
  | none => st
  | some next =>
    let nextLeft := if next.realPosition = Side.left then next.realAudio else next.fakeAudio
    let nextRight := if next.realPosition = Side.right then next.realAudio else next.fakeAudio
    { st with buffers := st.buffers ++ [⟨nextIndex, nextLeft⟩, ⟨nextIndex, nextRight⟩] }

/-- The whole effect body (lines 308–331): teardown strictly before creation. -/
def preloadEffect (rounds : List RoundSetup) (currentRound : Nat) (st : PreState) : PreState :=
  createNext rounds currentRound (teardown st)

end Pre

/-! ## Round selection (`handleSelect`, Game.tsx lines 757–845)

`handleSelect` is synchronous up to its `setTimeout`; the state it reads and
writes is the component state listed below.  The delayed transition (next
round / submission) consists of separate later events and is not needed for
the claims about the synchronous part. -/

namespace Sel

/-- The component state `handleSelect` reads and writes. -/
structure SelState where
  rounds : List RoundSetup
  currentRound : Nat
  selected : Option Side
  showResult : Bool
  isCorrect : Bool
  roundResults : List RoundData
  playingLeft : Bool
  playingRight : Bool
  replayLeft : Nat
  replayRight : Nat
  roundStartTime : Nat
  transitioning : Bool
deriving DecidableEq

/-- The synchronous body of `handleSelect side` at time `now` (ms):
`if (selected || transitioning || !round) return;` then select the side,
stop both channels (`stopAll`), compute correctness against the round's
real position, show the result and append the `RoundData` outcome.
`timeSpent` is `Math.round((now - roundStartTime) / 1000)`. -/
def handleSelect (now : Nat) (side : Side) (st : SelState) : SelState :=
  if st.selected.isSome || st.transitioning then st
  else
    match st.rounds[st.currentRound]? with
    | none => st
    | some round =>
      let correct := side = round.realPosition
      { st with
        selected := some side
        playingLeft := false
        playingRight := false
        isCorrect := correct
        showResult := true
        roundResults := st.roundResults ++
          [{ roundNum := st.currentRound + 1
             celebrity := round.celebrityName
             realAudio := round.realAudio
             fakeAudio := round.fakeAudio
             realPosition := round.realPosition
             userChoice := side
             correct := correct
             replayCountLeft := st.replayLeft
             replayCountRight := st.replayRight
             timeSpent := (now - st.roundStartTime + 500) / 1000 }] }

/-- A concrete fresh round state: round 0 of a one-round game with the real
clip on the left, nothing selected, no transition in flight. -/
def selFresh : Sel.SelState :=
  { rounds := [⟨"Obama", "/audio/Real/Obama/a.wav", "/audio/Cloned/Obama/b.wav", Side.left⟩]
    currentRound := 0, selected := none, showResult := false, isCorrect := false
    roundResults := [], playingLeft := true, playingRight := false
    replayLeft := 2, replayRight := 0, roundStartTime := 1000, transitioning := false }

end Sel

/-! ## Audio fallback (`useAudioFallback`, Game.tsx lines 135–291)

`handleAudioError(side)` is an async function.  Its synchronous prologue
checks `disabled`, the side's retry counter (`MAX_AUDIO_RETRIES = 3`) and the
side's single-flight flag, then marks the flight active, increments the
counter, captures `wasPlaying` and issues the resolver fetch.  The awaited
continuations — fetch settling, the replacement's `canplay`/`error` race,
the `el.play()` promise — are modelled as separate events gated on the
side's recorded flight stage.  Each channel carries a ghost `fetchCount` of
resolver requests issued for it. -/

namespace Fb

/-- Where an in-flight `handleAudioError` invocation is suspended:
at the resolver fetch (having captured `wasPlaying`), at the replacement's
`canplay`/`error` wait, or at the resumed `el.play()` promise. -/
inductive Stage where
  | awaitingFetch (wasPlaying : Bool)
  | awaitingReady
  | awaitingPlay
deriving DecidableEq

/-- One channel's fallback bookkeeping: the `retriesLeft/Right` ref, the
`fallbackActiveLeft/Right` ref, the `playingLeft/Right` state, the audio
element's current `src`, the suspended continuation, and the ghost count of
resolver requests issued for this channel. -/
structure ChanFb where
  retries : Nat
  active : Bool
  playing : Bool
  src : String
  flight : Option Stage
  fetchCount : Nat
deriving DecidableEq

/-- The state read and written by `useAudioFallback`: both channels plus the
`disabled` input (`!!selected || transitioning`). -/
structure FbState where
  left : ChanFb
  right : ChanFb
  disabled : Bool
deriving DecidableEq

/-- The source's `side === 'left' ? …Left : …Right` selection of a channel. -/
def FbState.chan : FbState → Side → ChanFb
  | st, .left => st.left
  | st, .right => st.right

/-- Write back one channel's state. -/
def FbState.setChan (st : FbState) : Side → ChanFb → FbState
  | .left, c => { st with left := c }
  | .right, c => { st with right := c }

/-- A fresh channel: counters zero, flags clear, nothing in flight. -/
def initChan : ChanFb :=
  { retries := 0, active := false, playing := false, src := "", flight := none, fetchCount := 0 }

/-- The initial hook state. -/
def initFb : FbState := { left := initChan, right := initChan, disabled := false }

/-- The events the hook reacts to.  `errorEv` is the `<audio>` element's
`onError` calling `handleAudioError`; `fetchOk`/`fetchFail` settle the
resolver fetch (`fetchFail` covers a rejected fetch, a non-ok status and a
missing `filePath`); `canplayOk`/`canplayFail` settle the replacement's
readiness race; `playOk`/`playFail` settle the resumed `el.play()`;
`assetChange` is the `useEffect` on `[leftAudio, rightAudio]` (round
transition) combined with the round-change cleanup that stops both channels;
`setDisabled` tracks `!!selected || transitioning`; `extPlay` is the playing
flag being set from outside the hook (`togglePlay`/`replay`). -/
inductive FbEv where
  | errorEv (s : Side)
  | fetchOk (s : Side) (filePath : String)
  | fetchFail (s : Side)
  | canplayOk (s : Side)
  | canplayFail (s : Side)
  | playOk (s : Side)
  | playFail (s : Side)
  | assetChange (l r : String)
  | setDisabled (b : Bool)
  | extPlay (s : Side) (b : Bool)
deriving DecidableEq

/-- Whether an event is the round's asset-pair change. -/
def FbEv.isAssetChange : FbEv → Bool
  | .assetChange _ _ => true
  | _ => false

/-- Whether an event ends side `s`'s in-flight fallback attempt (reaches the
`finally` clause that clears the single-flight flag). -/
def FbEv.completesFlight : FbEv → Side → Bool
  | .fetchOk t _, s => t == s
  | .fetchFail t, s => t == s
  | .canplayFail t, s => t == s
  | .playOk t, s => t == s
  | .playFail t, s => t == s
  | _, _ => false

/-- One atomic step of the hook.  An event whose continuation does not exist
in this state (for example a fetch settling for a side with no fetch in
flight) cannot occur in the running system; the model keeps the transition
function total by letting such an event leave the state unchanged. -/
def stepFb (st : FbState) : FbEv → FbState
  | .errorEv s =>
    -- handleAudioError's synchronous prologue (lines 175–226)
    if st.disabled then st
    else
      let c := st.chan s
      if 3 ≤ c.retries then st
      else if c.active then st
      else st.setChan s
        { c with active := true, retries := c.retries + 1,
                 flight := some (.awaitingFetch c.playing),
                 fetchCount := c.fetchCount + 1 }
  | .fetchOk s fp =>
    -- lines 229–246: swap src in place on the same element, reload;
    -- if wasPlaying, go wait for the replacement to become playable,
    -- otherwise the invocation completes (finally clears the flag)
    match (st.chan s).flight with
    | some (.awaitingFetch w) =>
      let c := st.chan s
      if w then st.setChan s { c with src := fp, flight := some .awaitingReady }
      else st.setChan s { c with src := fp, flight := none, active := false }
    | _ => st
  | .fetchFail s =>
    -- catch (lines 269–271): setPlaying(false); finally: flag cleared
    match (st.chan s).flight with
    | some (.awaitingFetch _) =>
      st.setChan s { st.chan s with playing := false, flight := none, active := false }
    | _ => st
  | .canplayOk s =>
    -- lines 249–264: replacement became playable, `await el.play()` begins
    match (st.chan s).flight with
    | some .awaitingReady => st.setChan s { st.chan s with flight := some .awaitingPlay }
    | _ => st
  | .canplayFail s =>
    -- the replacement itself failed to load: rejected promise → catch → finally
    match (st.chan s).flight with
    | some .awaitingReady =>
      st.setChan s { st.chan s with playing := false, flight := none, active := false }
    | _ => st
  | .playOk s =>
    -- lines 264–265: setPlaying(true); finally: flag cleared
    match (st.chan s).flight with
    | some .awaitingPlay =>
      st.setChan s { st.chan s with playing := true, flight := none, active := false }
    | _ => st
  | .playFail s =>
    match (st.chan s).flight with
    | some .awaitingPlay =>
      st.setChan s { st.chan s with playing := false, flight := none, active := false }
    | _ => st
  | .assetChange l r =>
    -- lines 167–172 (reset counters and flags on [leftAudio, rightAudio])
    -- together with the round-change cleanup (lines 618–633)
    { left := { st.left with retries := 0, active := false, playing := false, src := l }
      right := { st.right with retries := 0, active := false, playing := false, src := r }
      disabled := st.disabled }
  | .setDisabled b => { st with disabled := b }
  | .extPlay s b => st.setChan s { st.chan s with playing := b }

/-- Run a trace of events from a state. -/
def runFb (st : FbState) (tr : List FbEv) : FbState :=
  tr.foldl stepFb st

/-- Claim C2 exactly as the spec states it: for every channel, the retry
counter and the single-flight flag are reset (to zero/false) exactly when the
round's pair of Asset References changes, and they are reset by no other
event during the round. -/
def C2Stated : Prop :=
  ∀ (tr : List FbEv) (e : FbEv),
    let st := runFb initFb tr
    let st' := stepFb st e
    ((((st.chan .left).active = true ∧ (st'.chan .left).active = false) ∨
      ((st.chan .right).active = true ∧ (st'.chan .right).active = false) ∨
      ((st.chan .left).retries ≠ 0 ∧ (st'.chan .left).retries = 0) ∨
      ((st.chan .right).retries ≠ 0 ∧ (st'.chan .right).retries = 0)) →
      e.isAssetChange = true) ∧
    (e.isAssetChange = true →
      (st'.chan .left).retries = 0 ∧ (st'.chan .right).retries = 0 ∧
      (st'.chan .left).active = false ∧ (st'.chan .right).active = false)

/-- The state after `errorEv left` from `initFb`: attempt 1 recorded, the
flight active and suspended at the resolver fetch. -/
def fbAfterError : FbState :=
  { left := { retries := 1, active := true, playing := false, src := "",
              flight := some (.awaitingFetch false), fetchCount := 1 },
    right := initChan, disabled := false }

/-- The state after the resolver fetch for that attempt fails: the flight is
over and the single-flight flag is clear again — with no asset change. -/
def fbAfterFetchFail : FbState :=
  { fbAfterError with left := { fbAfterError.left with active := false, flight := none } }

/-- A state whose left channel was playing when its error fired and is now
suspended at the resolver fetch (reached by `[extPlay left true, errorEv left]`). -/
def fbPlayingFlight : FbState :=
  { left := { retries := 1, active := true, playing := true, src := "",
              flight := some (.awaitingFetch true), fetchCount := 1 },
    right := initChan, disabled := false }

/-- A state whose left channel has exhausted its retry budget. -/
def fbExhausted : FbState :=
  { initFb with left := { initChan with retries := 3 } }

/-- A state in which the controller is disabled (a side is selected or a
round transition is in progress). -/
def fbDisabled : FbState := { initFb with disabled := true }

/-- The state `fbPlayingFlight` after the resolver answers with a replacement
for the left channel. -/
def fbC4After : FbState :=
  stepFb fbPlayingFlight (.fetchOk .left "/audio/Real/Obama/c.wav")

end Fb

/-! ## Play/pause race guard (`togglePlay`/`replay`, Game.tsx lines 687–755)

`togglePlay(side)` reads the element's `paused` attribute: if paused it
pauses the opposite element, clears its flag, increments the shared
`playRequestId` ref and calls `play()`; the async continuation sets the
side's playing flag only if `playRequestId.current` still equals the captured
id.  If not paused it pauses the element and clears the flag synchronously.
`replay(side)` always rewinds and plays, with the same token discipline.

The media-element platform contract is part of the model: calling `pause()`
rejects the element's pending `play()` promises (`AbortError` — the source's
catch handlers change no state, so rejected promises are simply dropped), and
a pending `play()` promise can resolve successfully only while the element is
not paused.  Ghost state: `callClock` counts the play/pause calls made across
both channels, each channel's `lastCall` is the clock of the most recent
play/pause call on it, and each pending request records the clock of the call
that issued it — this makes "no newer call has superseded the request on this
channel" a statement about the state. -/

namespace PlayM

/-- One pending `play()` promise: the captured `playRequestId` token and the
ghost index of the play/pause call that issued it. -/
structure PlayReq where
  id : Nat
  call : Nat
deriving DecidableEq

/-- One channel: the playing flag, the element's `paused` attribute, the
element's live (unsettled) play promises, and the ghost `lastCall`. -/
structure Chan where
  playing : Bool
  paused : Bool
  pending : List PlayReq
  lastCall : Nat
deriving DecidableEq

/-- The state `togglePlay`/`replay` read and write: both channels, the shared
`playRequestId` ref, the `selected` guard, and the ghost call clock. -/
structure PlayState where
  left : Chan
  right : Chan
  playRequestId : Nat
  selected : Bool
  callClock : Nat
deriving DecidableEq

/-- The `side === 'left' ? … : …` selection of a channel. -/
def PlayState.chan : PlayState → Side → Chan
  | st, .left => st.left
  | st, .right => st.right

/-- Write back one channel's state. -/
def PlayState.setChan (st : PlayState) : Side → Chan → PlayState
  | .left, c => { st with left := c }
  | .right, c => { st with right := c }

/-- A fresh channel: not playing, element paused, no pending promise. -/
def initChan : Chan := { playing := false, paused := true, pending := [], lastCall := 0 }

/-- The initial component state. -/
def initPlay : PlayState :=
  { left := initChan, right := initChan, playRequestId := 0, selected := false, callClock := 0 }

/-- `ref.current?.pause(); setFlag(false)`: the element pauses — the platform
rejects its pending play promises, whose catch handlers change no state — and
the side's playing flag is cleared. -/
def stopSide (st : PlayState) (s : Side) : PlayState :=
  st.setChan s { st.chan s with paused := true, pending := [], playing := false }

/-- The shared tail of `togglePlay`'s play branch and of `replay`: stop the
opposite side, then `const id = ++playRequestId.current` and call `play()` on
this side's element (the element un-pauses; the continuation captures `id`). -/
def issuePlay (st : PlayState) (s : Side) : PlayState :=
  let st1 := stopSide st s.other
  let newId := st1.playRequestId + 1
  let c := st1.callClock + 1
  let ch := st1.chan s
  { st1.setChan s
      { ch with paused := false, pending := ch.pending ++ [⟨newId, c⟩], lastCall := c } with
    playRequestId := newId, callClock := c }

/-- `togglePlay`'s pause branch: `thisRef.current?.pause(); setThis(false)` —
a play/pause call on side `s`, so the ghost clock advances and `lastCall`
moves to it. -/
def pauseSide (st : PlayState) (s : Side) : PlayState :=
  let st1 := stopSide st s
  { st1.setChan s { st1.chan s with lastCall := st.callClock + 1 } with
    callClock := st.callClock + 1 }

/-- A pending play promise settling: it is removed from the element's live
promise list. -/
def settle (st : PlayState) (s : Side) (id : Nat) : PlayState :=
  st.setChan s { st.chan s with pending := (st.chan s).pending.filter (fun r => r.id ≠ id) }

/-- `stopAll` (lines 668–673): pause both elements and clear both flags. -/
def stopAll (st : PlayState) : PlayState := stopSide (stopSide st .left) .right

/-- The events driving the two channels.  `resolve`/`reject` settle one
pending play promise (successfully only while the element is un-paused);
`ended` is the element's `onEnded` handler (the element's `paused` attribute
stays false at the end of playback); `select` is `handleSelect`'s `stopAll`;
`roundChange` is the round-change cleanup effect (lines 618–633). -/
inductive PlayEv where
  | togglePlay (s : Side)
  | replay (s : Side)
  | resolve (s : Side) (id : Nat)
  | reject (s : Side) (id : Nat)
  | ended (s : Side)
  | select (s : Side)
  | roundChange
deriving DecidableEq

/-- One atomic step.  An event that cannot occur (settling a promise that is
not pending) leaves the state unchanged. -/
def stepPlay (st : PlayState) : PlayEv → PlayState
  | .togglePlay s =>
    -- lines 687–721
    if st.selected then st
    else if (st.chan s).paused then issuePlay st s
    else pauseSide st s
  | .replay s =>
    -- lines 724–755 (the rewind does not affect the modelled state)
    if st.selected then st else issuePlay st s
  | .resolve s id =>
    if ((st.chan s).pending.any fun r => r.id == id) && !(st.chan s).paused then
      if st.playRequestId = id then
        -- `.then(() => { if (playRequestId.current === id) setThis(true); })`
        (settle st s id).setChan s { (settle st s id).chan s with playing := true }
      else settle st s id
    else st
  | .reject s id =>
    -- `.catch(...)`: no state change beyond the promise settling
    settle st s id
  | .ended s =>
    -- `onEnded={() => setPlaying…(false)}`
    st.setChan s { st.chan s with playing := false }
  | .select _s =>
    -- `handleSelect`: if accepted, `stopAll()` pauses both elements
    -- (whichever side was chosen)
    if st.selected then st else { stopAll st with selected := true }
  | .roundChange =>
    -- the `[currentRound]` effect pauses and rewinds both elements and
    -- clears both flags; the new round has nothing selected
    { stopAll st with selected := false }

/-- Run a trace of events from a state. -/
def runPlay (st : PlayState) (tr : List PlayEv) : PlayState :=
  tr.foldl stepPlay st

/-- The race-guard invariant: every live pending request has a token no newer
than the shared `playRequestId`, and a live pending request holding the
current token was issued by the most recent play/pause call on its channel. -/
def Inv (st : PlayState) : Prop :=
  ∀ s : Side, ∀ r ∈ (st.chan s).pending,
    r.id ≤ st.playRequestId ∧ (r.id = st.playRequestId → r.call = (st.chan s).lastCall)

/-- The state reached from the initial one by a single `togglePlay('left')`:
one pending play request for the left channel. -/
def playWit : PlayState := runPlay initPlay [.togglePlay .left]

end PlayM

/-! ## Asset Resolver endpoint (`GET /api/audio-files/:celebrity`, backend)

The Express handler validates the celebrity and category, lists the
celebrity's folder for the category, keeps the `.wav` files, removes the
excluded file from the candidates unless that would leave none, and answers
with a random candidate.  The filesystem is modelled as association lists of
directory listings per category; `rand` stands for the random draw
(`Math.floor(Math.random() * candidates.length)`), reduced modulo the
candidate count. -/

namespace Resolver

/-- posix `path.basename`: the last non-empty `/`-separated component
(`""` when there is none). -/
def basename (p : String) : String :=
  ((p.splitOn "/").filter (fun c => c ≠ "")).getLast?.getD ""

/-- The audio library on disk: for each of the two categories, the celebrity
folders with their directory listings; an absent entry is a missing folder
(`fs.existsSync(folder)` false). -/
structure AudioFs where
  realDirs : List (String × List String)
  clonedDirs : List (String × List String)

/-- Directory lookup. -/
def lookupDir (dirs : List (String × List String)) (name : String) : Option (List String) :=
  (dirs.find? (fun p => p.1 == name)).map (fun p => p.2)

/-- The base path chosen by the category (`category === "Real" ? realBasePath
: clonedBasePath`). -/
def AudioFs.dirsFor (fsys : AudioFs) (category : String) : List (String × List String) :=
  if category = "Real" then fsys.realDirs else fsys.clonedDirs

/-- `f.toLowerCase().endsWith(".wav")`. -/
def isWav (f : String) : Bool := f.toLower.endsWith ".wav"

/-- The handler's response: a `filePath` or an HTTP error status. -/
inductive ApiResult where
  | ok (filePath : String)
  | err (status : Nat)
deriving DecidableEq

/-- The handler body (backend lines 181–224). -/
def audioFilesEndpoint (fsys : AudioFs) (celebrity category : String)
    (exclude : Option String) (rand : Nat) : ApiResult :=
  if celebrity = "" then .err 400
  else if category ≠ "Real" ∧ category ≠ "Cloned" then .err 400
  else
    let safeCelebrity := basename celebrity
    match lookupDir (fsys.dirsFor category) safeCelebrity with
    | none => .err 404
    | some files =>
      let allFiles := files.filter isWav
      if allFiles.isEmpty then .err 404
      else
        let candidates :=
          match exclude with
          | some ex =>
            -- `if (exclude && typeof exclude === "string")`: "" is falsy
            if ex = "" then allFiles
            else
              let brokenFilename := basename ex
              let filtered := allFiles.filter (fun f => f ≠ brokenFilename)
              if filtered.length > 0 then filtered else allFiles
          | none => allFiles
        let picked := candidates.getD (rand % candidates.length) ""
        .ok ("/audio/" ++ category ++ "/" ++ safeCelebrity ++ "/" ++ picked)

/-- A one-celebrity library whose Real folder holds a single clip. -/
def resWitFs : AudioFs := ⟨[("Obama", ["clip01.wav"])], []⟩

end Resolver

/-! ## Theorems -/

section PreTheorems

open Pre

theorem Pre.teardown_empties (st : PreState) : (teardown st).buffers = [] := rfl

theorem Pre.createNext_tags (rounds : List RoundSetup) (cur : Nat) (st : PreState) :
    ∀ b ∈ (createNext rounds cur st).buffers, b ∈ st.buffers ∨ b.roundIdx = cur + 1 := by
  intro b hb
  simp only [createNext] at hb
  split at hb
  · exact Or.inl hb
  · simp only [List.mem_append, List.mem_cons, List.not_mem_nil, or_false] at hb
    rcases hb with hb | hb | hb
    · exact Or.inl hb
    · right; rw [hb]
    · right; rw [hb]

/-- C7: on every round-index change the Preloader fully discards all buffers
of the previous next-round before creating any buffer for the new next-round:
the teardown phase leaves no buffer, every buffer of the completed effect
belongs to round `currentRound + 1`, so at no point of the effect do buffers
for two different rounds coexist; running the effect twice for the same round
index adds nothing beyond the first run. -/
theorem C7_preloader_discards_before_creating
    (rounds : List RoundSetup) (cur : Nat) (st : Pre.PreState) :
    (Pre.teardown st).buffers = [] ∧
    Pre.preloadEffect rounds cur st = Pre.createNext rounds cur (Pre.teardown st) ∧
    (∀ b ∈ (Pre.preloadEffect rounds cur st).buffers, b.roundIdx = cur + 1) ∧
    (∀ b₁ ∈ (Pre.preloadEffect rounds cur st).buffers,
     ∀ b₂ ∈ (Pre.preloadEffect rounds cur st).buffers, b₁.roundIdx = b₂.roundIdx) ∧
    Pre.preloadEffect rounds cur (Pre.preloadEffect rounds cur st) =
      Pre.preloadEffect rounds cur st := by
  have htag : ∀ b ∈ (Pre.preloadEffect rounds cur st).buffers, b.roundIdx = cur + 1 := by
    intro b hb
    rcases Pre.createNext_tags rounds cur (Pre.teardown st) b hb with h | h
    · simp [Pre.teardown] at h
    · exact h
  refine ⟨rfl, rfl, htag, ?_, rfl⟩
  intro b₁ h₁ b₂ h₂
  rw [htag b₁ h₁, htag b₂ h₂]

/-- C10: when no round exists at index `currentRound + 1` (the active round is
the last one), the Preloader's effect tears the previous buffers down and
creates nothing: its buffer list ends empty. -/
theorem C10_last_round_no_preload (rounds : List RoundSetup) (cur : Nat) (st : Pre.PreState)
    (h : rounds.length ≤ cur + 1) :
    (Pre.preloadEffect rounds cur st).buffers = [] := by
  have hnone : rounds[cur + 1]? = none := by
    rw [List.getElem?_eq_none_iff]
    exact h
  simp [Pre.preloadEffect, Pre.createNext, Pre.teardown, hnone]

/-- Witness for C10 at a concrete input: a one-round game, active round 0. -/
theorem C10_last_round_no_preload_witness :
    (Pre.preloadEffect [⟨"Obama", "/audio/Real/Obama/a.wav", "/audio/Cloned/Obama/b.wav", Side.left⟩]
      0 ⟨[⟨0, "x"⟩]⟩).buffers = [] :=
  C10_last_round_no_preload _ 0 _ (by decide)

end PreTheorems

section SelTheorems

open Sel

theorem Sel.handleSelect_noop_of_selected (now : Nat) (side : Side) (st : SelState)
    (h : st.selected.isSome) : handleSelect now side st = st := by
  unfold handleSelect
  simp [h]

theorem Sel.handleSelect_selects (now : Nat) (side : Side) (st : SelState) (round : RoundSetup)
    (hsel : st.selected = none) (htr : st.transitioning = false)
    (hrnd : st.rounds[st.currentRound]? = some round) :
    (handleSelect now side st).selected = some side := by
  unfold handleSelect
  simp [hsel, htr, hrnd]

/-- C5: the first `selectSide` of a round is accepted (the side becomes the
round's selection) and every subsequent `selectSide` call while a side is
selected — in particular any call right after the first — changes nothing at
all: the whole state, outcome log included, is returned untouched. -/
theorem C5_selection_idempotent (now now₂ : Nat) (s s₂ : Side) (st : Sel.SelState)
    (round : RoundSetup)
    (hsel : st.selected = none) (htr : st.transitioning = false)
    (hrnd : st.rounds[st.currentRound]? = some round) :
    (Sel.handleSelect now s st).selected = some s ∧
    Sel.handleSelect now₂ s₂ (Sel.handleSelect now s st) = Sel.handleSelect now s st ∧
    (∀ st' : Sel.SelState, st'.selected.isSome → Sel.handleSelect now₂ s₂ st' = st') := by
  have hfirst := Sel.handleSelect_selects now s st round hsel htr hrnd
  refine ⟨hfirst, ?_, fun st' h => Sel.handleSelect_noop_of_selected now₂ s₂ st' h⟩
  exact Sel.handleSelect_noop_of_selected now₂ s₂ _ (by rw [hfirst]; rfl)

/-- Witness for C5 at a concrete input: selecting left at t=3000, then again. -/
theorem C5_selection_idempotent_witness :
    (Sel.handleSelect 3000 Side.left selFresh).selected = some Side.left ∧
    Sel.handleSelect 4000 Side.right (Sel.handleSelect 3000 Side.left selFresh) =
      Sel.handleSelect 3000 Side.left selFresh ∧
    (∀ st' : Sel.SelState, st'.selected.isSome →
      Sel.handleSelect 4000 Side.right st' = st') :=
  C5_selection_idempotent 3000 4000 Side.left Side.right selFresh _ rfl rfl rfl

/-- C6: the outcome appended by selecting `s` carries `userChoice = s` and is
`correct` exactly when `s` is the round's authentic position; in particular a
round with the authentic clip on the left and selection left yields a correct
outcome with `userChoice = left`. -/
theorem C6_outcome_correctness (now : Nat) (s : Side) (st : Sel.SelState) (round : RoundSetup)
    (hsel : st.selected = none) (htr : st.transitioning = false)
    (hrnd : st.rounds[st.currentRound]? = some round) :
    ∃ outcome : RoundData,
      (Sel.handleSelect now s st).roundResults = st.roundResults ++ [outcome] ∧
      outcome.userChoice = s ∧
      (outcome.correct = true ↔ s = round.realPosition) ∧
      (round.realPosition = Side.left → s = Side.left → outcome.correct = true) := by
  refine ⟨{ roundNum := st.currentRound + 1, celebrity := round.celebrityName
            realAudio := round.realAudio, fakeAudio := round.fakeAudio
            realPosition := round.realPosition, userChoice := s
            correct := s = round.realPosition
            replayCountLeft := st.replayLeft, replayCountRight := st.replayRight
            timeSpent := (now - st.roundStartTime + 500) / 1000 }, ?_, rfl, ?_, ?_⟩
  · unfold Sel.handleSelect
    simp [hsel, htr, hrnd]
  · simp
  · intro h₁ h₂
    simp [h₁, h₂]

/-- Witness for C6 at a concrete input: authentic clip on the left, user
selects left. -/
theorem C6_outcome_correctness_witness :
    ∃ outcome : RoundData,
      (Sel.handleSelect 3000 Side.left selFresh).roundResults = [] ++ [outcome] ∧
      outcome.userChoice = Side.left ∧
      (outcome.correct = true ↔ Side.left =
        (⟨"Obama", "/audio/Real/Obama/a.wav", "/audio/Cloned/Obama/b.wav", Side.left⟩
          : RoundSetup).realPosition) ∧
      ((⟨"Obama", "/audio/Real/Obama/a.wav", "/audio/Cloned/Obama/b.wav", Side.left⟩
          : RoundSetup).realPosition = Side.left → Side.left = Side.left →
        outcome.correct = true) :=
  C6_outcome_correctness 3000 Side.left selFresh _ rfl rfl rfl

end SelTheorems

section FbTheorems

open Fb

theorem Fb.chan_setChan (st : FbState) (t s : Side) (c : ChanFb) :
    (st.setChan t c).chan s = if s = t then c else st.chan s := by
  cases s <;> cases t <;> simp [FbState.setChan, FbState.chan]

/-- Writing back a channel whose counters are unchanged changes no channel's
counters. -/
theorem Fb.chan_frame (st : FbState) (t : Side) (c : ChanFb) (s : Side)
    (hr : c.retries = (st.chan t).retries) (hf : c.fetchCount = (st.chan t).fetchCount) :
    ((st.setChan t c).chan s).retries = (st.chan s).retries ∧
    ((st.setChan t c).chan s).fetchCount = (st.chan s).fetchCount := by
  rw [chan_setChan]
  split
  · next hst => subst hst; exact ⟨hr, hf⟩
  · exact ⟨rfl, rfl⟩

/-- Every event other than a failure report and an asset change leaves every
channel's retry counter and resolver-request count unchanged. -/
theorem Fb.step_counters_frame (st : FbState) (e : FbEv) (s : Side)
    (he : ∀ t, e ≠ .errorEv t) (ha : e.isAssetChange = false) :
    ((stepFb st e).chan s).retries = (st.chan s).retries ∧
    ((stepFb st e).chan s).fetchCount = (st.chan s).fetchCount := by
  cases e with
  | errorEv t => exact absurd rfl (he t)
  | assetChange l r => simp [FbEv.isAssetChange] at ha
  | setDisabled b => cases s <;> exact ⟨rfl, rfl⟩
  | extPlay t b => exact chan_frame st t _ s rfl rfl
  | fetchOk t fp =>
    cases hfl : (st.chan t).flight with
    | none => simp [stepFb, hfl]
    | some stg =>
      cases stg with
      | awaitingFetch w =>
        simp only [stepFb, hfl]
        split
        · exact chan_frame st t _ s rfl rfl
        · exact chan_frame st t _ s rfl rfl
      | awaitingReady => simp [stepFb, hfl]
      | awaitingPlay => simp [stepFb, hfl]
  | fetchFail t =>
    cases hfl : (st.chan t).flight with
    | none => simp [stepFb, hfl]
    | some stg =>
      cases stg with
      | awaitingFetch w => simp only [stepFb, hfl]; exact chan_frame st t _ s rfl rfl
      | awaitingReady => simp [stepFb, hfl]
      | awaitingPlay => simp [stepFb, hfl]
  | canplayOk t =>
    cases hfl : (st.chan t).flight with
    | none => simp [stepFb, hfl]
    | some stg =>
      cases stg with
      | awaitingFetch w => simp [stepFb, hfl]
      | awaitingReady => simp only [stepFb, hfl]; exact chan_frame st t _ s rfl rfl
      | awaitingPlay => simp [stepFb, hfl]
  | canplayFail t =>
    cases hfl : (st.chan t).flight with
    | none => simp [stepFb, hfl]
    | some stg =>
      cases stg with
      | awaitingFetch w => simp [stepFb, hfl]
      | awaitingReady => simp only [stepFb, hfl]; exact chan_frame st t _ s rfl rfl
      | awaitingPlay => simp [stepFb, hfl]
  | playOk t =>
    cases hfl : (st.chan t).flight with
    | none => simp [stepFb, hfl]
    | some stg =>
      cases stg with
      | awaitingFetch w => simp [stepFb, hfl]
      | awaitingReady => simp [stepFb, hfl]
      | awaitingPlay => simp only [stepFb, hfl]; exact chan_frame st t _ s rfl rfl
  | playFail t =>
    cases hfl : (st.chan t).flight with
    | none => simp [stepFb, hfl]
    | some stg =>
      cases stg with
      | awaitingFetch w => simp [stepFb, hfl]
      | awaitingReady => simp [stepFb, hfl]
      | awaitingPlay => simp only [stepFb, hfl]; exact chan_frame st t _ s rfl rfl

/-- A failure report on a channel whose budget is spent is a no-op. -/
theorem Fb.errorEv_noop_of_exhausted (st : FbState) (s : Side)
    (h : 3 ≤ (st.chan s).retries) : stepFb st (.errorEv s) = st := by
  simp only [stepFb]
  split <;> rfl

/-- Any single non-`assetChange` event keeps a channel's exhausted budget
exhausted and issues no resolver request for it. -/
theorem Fb.step_budget_frame (st : FbState) (e : FbEv) (s : Side)
    (he : e.isAssetChange = false) (h : 3 ≤ (st.chan s).retries) :
    ((stepFb st e).chan s).fetchCount = (st.chan s).fetchCount ∧
    3 ≤ ((stepFb st e).chan s).retries := by
  cases e with
  | errorEv t =>
    by_cases hst : t = s
    · subst hst
      rw [errorEv_noop_of_exhausted st t h]
      exact ⟨rfl, h⟩
    · simp only [stepFb]
      split
      · exact ⟨rfl, h⟩
      split
      · exact ⟨rfl, h⟩
      split
      · exact ⟨rfl, h⟩
      · rw [chan_setChan, if_neg (fun hss => hst hss.symm)]
        exact ⟨rfl, h⟩
  | assetChange l r => simp [FbEv.isAssetChange] at he
  | setDisabled b =>
    obtain ⟨h1, h2⟩ := step_counters_frame st (.setDisabled b) s (fun u hu => by cases hu) he
    exact ⟨h2, h1 ▸ h⟩
  | extPlay t b =>
    obtain ⟨h1, h2⟩ := step_counters_frame st (.extPlay t b) s (fun u hu => by cases hu) he
    exact ⟨h2, h1 ▸ h⟩
  | fetchOk t fp =>
    obtain ⟨h1, h2⟩ := step_counters_frame st (.fetchOk t fp) s (fun u hu => by cases hu) he
    exact ⟨h2, h1 ▸ h⟩
  | fetchFail t =>
    obtain ⟨h1, h2⟩ := step_counters_frame st (.fetchFail t) s (fun u hu => by cases hu) he
    exact ⟨h2, h1 ▸ h⟩
  | canplayOk t =>
    obtain ⟨h1, h2⟩ := step_counters_frame st (.canplayOk t) s (fun u hu => by cases hu) he
    exact ⟨h2, h1 ▸ h⟩
  | canplayFail t =>
    obtain ⟨h1, h2⟩ := step_counters_frame st (.canplayFail t) s (fun u hu => by cases hu) he
    exact ⟨h2, h1 ▸ h⟩
  | playOk t =>
    obtain ⟨h1, h2⟩ := step_counters_frame st (.playOk t) s (fun u hu => by cases hu) he
    exact ⟨h2, h1 ▸ h⟩
  | playFail t =>
    obtain ⟨h1, h2⟩ := step_counters_frame st (.playFail t) s (fun u hu => by cases hu) he
    exact ⟨h2, h1 ▸ h⟩

/-- C3: once a channel's retry counter has reached the `MAX_AUDIO_RETRIES = 3`
budget, every further failure report on it returns without any state change
(in particular without contacting the Asset Resolver), and along any
continuation of the round — any trace without an asset-pair change — the
channel's resolver-request count never grows again and its budget stays
exhausted, until the next load. -/
theorem C3_retry_budget_exhausted (st : Fb.FbState) (s : Side)
    (h : 3 ≤ (st.chan s).retries) :
    Fb.stepFb st (.errorEv s) = st ∧
    ∀ tr : List Fb.FbEv, (∀ e ∈ tr, e.isAssetChange = false) →
      ((Fb.runFb st tr).chan s).fetchCount = (st.chan s).fetchCount ∧
      3 ≤ ((Fb.runFb st tr).chan s).retries := by
  refine ⟨Fb.errorEv_noop_of_exhausted st s h, ?_⟩
  intro tr
  induction tr generalizing st with
  | nil => exact fun _ => ⟨rfl, h⟩
  | cons e tr ih =>
    intro hno
    have he := hno e (List.mem_cons_self e tr)
    have hstep := Fb.step_budget_frame st e s he h
    have hrest := ih (Fb.stepFb st e) hstep.2 (fun e' he' => hno e' (List.mem_cons_of_mem e he'))
    simp only [Fb.runFb, List.foldl_cons] at *
    exact ⟨hrest.1.trans hstep.1, hrest.2⟩

/-- Witness for C3 at a concrete input: a left channel with its budget spent,
then one more failure report and a stray fetch-settling event. -/
theorem C3_retry_budget_exhausted_witness :
    Fb.stepFb Fb.fbExhausted (.errorEv .left) = Fb.fbExhausted ∧
    ((Fb.runFb Fb.fbExhausted [Fb.FbEv.errorEv .left, Fb.FbEv.fetchFail .left]).chan
        .left).fetchCount = (Fb.fbExhausted.chan .left).fetchCount ∧
    3 ≤ ((Fb.runFb Fb.fbExhausted [Fb.FbEv.errorEv .left, Fb.FbEv.fetchFail .left]).chan
        .left).retries := by
  have hmain := C3_retry_budget_exhausted Fb.fbExhausted .left (by decide)
  exact ⟨hmain.1, hmain.2 [Fb.FbEv.errorEv .left, Fb.FbEv.fetchFail .left] (by decide)⟩

/-- C8: a failure reported while the controller is disabled (a side already
selected, or a round transition in progress) is ignored entirely: the state —
retry counter, single-flight flag, playing flag, resolver-request count —
is returned untouched, and no fallback is attempted. -/
theorem C8_disabled_failure_ignored (st : Fb.FbState) (s : Side)
    (hd : st.disabled = true) : Fb.stepFb st (.errorEv s) = st := by
  simp only [Fb.stepFb]
  rw [if_pos hd]

/-- Witness for C8 at a concrete input: the initial state with a side selected. -/
theorem C8_disabled_failure_ignored_witness :
    Fb.stepFb Fb.fbDisabled (.errorEv .left) = Fb.fbDisabled :=
  C8_disabled_failure_ignored Fb.fbDisabled .left rfl

/-- C2 as stated is false on the code: completing the in-flight fallback
attempt (here: the resolver fetch failing) clears the single-flight flag with
no asset-pair change — the `finally` clause of `handleAudioError` resets it.
Concretely, from the initial state, `errorEv left` sets the left flag and
`fetchFail left` clears it again, and `fetchFail` is not an asset change. -/
theorem C2_counterexample : ¬ Fb.C2Stated := by
  intro h
  have hinst := (h [Fb.FbEv.errorEv .left] (Fb.FbEv.fetchFail .left)).1
  have : (Fb.FbEv.fetchFail Side.left).isAssetChange = true := hinst (Or.inl (by decide))
  exact absurd this (by decide)

/-- A channel's retry counter can only return to zero through an asset-pair
change: no other event ever lowers it. -/
theorem Fb.retries_reset_only_on_assetChange (st : Fb.FbState) (e : Fb.FbEv) (s : Side) :
    ((Fb.stepFb st e).chan s).retries = 0 →
      ((st.chan s).retries = 0 ∨ e.isAssetChange = true) := by
  cases e with
  | errorEv t =>
    intro hr
    left
    by_cases hd : st.disabled = true
    · rwa [C8_disabled_failure_ignored st t hd] at hr
    · simp only [Fb.stepFb, if_neg hd] at hr
      split at hr
      · exact hr
      split at hr
      · exact hr
      · rw [Fb.chan_setChan] at hr
        split at hr
        · simp at hr
        · exact hr
  | assetChange l r => exact fun _ => Or.inr rfl
  | setDisabled b =>
    intro hr
    obtain ⟨h1, _⟩ := Fb.step_counters_frame st (.setDisabled b) s (fun u hu => by cases hu) rfl
    exact Or.inl (h1 ▸ hr)
  | extPlay t b =>
    intro hr
    obtain ⟨h1, _⟩ := Fb.step_counters_frame st (.extPlay t b) s (fun u hu => by cases hu) rfl
    exact Or.inl (h1 ▸ hr)
  | fetchOk t fp =>
    intro hr
    obtain ⟨h1, _⟩ := Fb.step_counters_frame st (.fetchOk t fp) s (fun u hu => by cases hu) rfl
    exact Or.inl (h1 ▸ hr)
  | fetchFail t =>
    intro hr
    obtain ⟨h1, _⟩ := Fb.step_counters_frame st (.fetchFail t) s (fun u hu => by cases hu) rfl
    exact Or.inl (h1 ▸ hr)
  | canplayOk t =>
    intro hr
    obtain ⟨h1, _⟩ := Fb.step_counters_frame st (.canplayOk t) s (fun u hu => by cases hu) rfl
    exact Or.inl (h1 ▸ hr)
  | canplayFail t =>
    intro hr
    obtain ⟨h1, _⟩ := Fb.step_counters_frame st (.canplayFail t) s (fun u hu => by cases hu) rfl
    exact Or.inl (h1 ▸ hr)
  | playOk t =>
    intro hr
    obtain ⟨h1, _⟩ := Fb.step_counters_frame st (.playOk t) s (fun u hu => by cases hu) rfl
    exact Or.inl (h1 ▸ hr)
  | playFail t =>
    intro hr
    obtain ⟨h1, _⟩ := Fb.step_counters_frame st (.playFail t) s (fun u hu => by cases hu) rfl
    exact Or.inl (h1 ▸ hr)


/-- A channel's single-flight flag is cleared only by an asset-pair change or
by an event that completes the channel's in-flight fallback attempt (running
the `finally` clause of `handleAudioError`). -/
theorem Fb.active_clear_only_on_assetChange_or_completion
    (st : Fb.FbState) (e : Fb.FbEv) (s : Side)
    (ha : (st.chan s).active = true) (hc : ((Fb.stepFb st e).chan s).active = false) :
    e.isAssetChange = true ∨ e.completesFlight s = true := by
  cases e with
  | assetChange l r => exact Or.inl rfl
  | errorEv t =>
    exfalso
    revert hc
    simp only [Fb.stepFb]
    split
    · simp [ha]
    split
    · simp [ha]
    split
    · simp [ha]
    · rw [Fb.chan_setChan]
      split
      · simp
      · simp [ha]
  | setDisabled b =>
    exfalso
    revert hc
    cases s <;>
    · simp only [Fb.FbState.chan] at ha
      simp [Fb.stepFb, Fb.FbState.chan, ha]
  | extPlay t b =>
    exfalso
    revert hc
    simp only [Fb.stepFb]
    rw [Fb.chan_setChan]
    split
    · next hst => subst hst; simp [ha]
    · simp [ha]
  | canplayOk t =>
    exfalso
    revert hc
    cases hfl : (st.chan t).flight with
    | none => simp [Fb.stepFb, hfl, ha]
    | some stg =>
      cases stg with
      | awaitingFetch w => simp [Fb.stepFb, hfl, ha]
      | awaitingReady =>
        simp only [Fb.stepFb, hfl]
        rw [Fb.chan_setChan]
        split
        · next hst => subst hst; simp [ha]
        · simp [ha]
      | awaitingPlay => simp [Fb.stepFb, hfl, ha]
  | fetchOk t fp =>
    by_cases hst : s = t
    · subst hst; exact Or.inr (by simp [Fb.FbEv.completesFlight])
    · exfalso
      revert hc
      cases hfl : (st.chan t).flight with
      | none => simp [Fb.stepFb, hfl, ha]
      | some stg =>
        cases stg with
        | awaitingFetch w =>
          simp only [Fb.stepFb, hfl]
          split <;> (rw [Fb.chan_setChan]; rw [if_neg hst]; simp [ha])
        | awaitingReady => simp [Fb.stepFb, hfl, ha]
        | awaitingPlay => simp [Fb.stepFb, hfl, ha]
  | fetchFail t =>
    by_cases hst : s = t
    · subst hst; exact Or.inr (by simp [Fb.FbEv.completesFlight])
    · exfalso
      revert hc
      cases hfl : (st.chan t).flight with
      | none => simp [Fb.stepFb, hfl, ha]
      | some stg =>
        cases stg with
        | awaitingFetch w =>
          simp only [Fb.stepFb, hfl]
          rw [Fb.chan_setChan, if_neg hst]
          simp [ha]
        | awaitingReady => simp [Fb.stepFb, hfl, ha]
        | awaitingPlay => simp [Fb.stepFb, hfl, ha]
  | canplayFail t =>
    by_cases hst : s = t
    · subst hst; exact Or.inr (by simp [Fb.FbEv.completesFlight])
    · exfalso
      revert hc
      cases hfl : (st.chan t).flight with
      | none => simp [Fb.stepFb, hfl, ha]
      | some stg =>
        cases stg with
        | awaitingFetch w => simp [Fb.stepFb, hfl, ha]
        | awaitingReady =>
          simp only [Fb.stepFb, hfl]
          rw [Fb.chan_setChan, if_neg hst]
          simp [ha]
        | awaitingPlay => simp [Fb.stepFb, hfl, ha]
  | playOk t =>
    by_cases hst : s = t
    · subst hst; exact Or.inr (by simp [Fb.FbEv.completesFlight])
    · exfalso
      revert hc
      cases hfl : (st.chan t).flight with
      | none => simp [Fb.stepFb, hfl, ha]
      | some stg =>
        cases stg with
        | awaitingFetch w => simp [Fb.stepFb, hfl, ha]
        | awaitingReady => simp [Fb.stepFb, hfl, ha]
        | awaitingPlay =>
          simp only [Fb.stepFb, hfl]
          rw [Fb.chan_setChan, if_neg hst]
          simp [ha]
  | playFail t =>
    by_cases hst : s = t
    · subst hst; exact Or.inr (by simp [Fb.FbEv.completesFlight])
    · exfalso
      revert hc
      cases hfl : (st.chan t).flight with
      | none => simp [Fb.stepFb, hfl, ha]
      | some stg =>
        cases stg with
        | awaitingFetch w => simp [Fb.stepFb, hfl, ha]
        | awaitingReady => simp [Fb.stepFb, hfl, ha]
        | awaitingPlay =>
          simp only [Fb.stepFb, hfl]
          rw [Fb.chan_setChan, if_neg hst]
          simp [ha]

/-- An asset-pair change resets both channels' retry counter and flag. -/
theorem Fb.assetChange_resets (st : Fb.FbState) (l r : String) (s : Side) :
    ((Fb.stepFb st (.assetChange l r)).chan s).retries = 0 ∧
    ((Fb.stepFb st (.assetChange l r)).chan s).active = false := by
  cases s <;> exact ⟨rfl, rfl⟩

/-- C2, amended as the code forces: for every channel, the retry counter is
reset to zero exactly by an asset-pair change (every round transition) and by
no other event; the single-flight flag is likewise reset by every asset-pair
change, but it is additionally cleared — by the `finally` clause of
`handleAudioError` — whenever the channel's in-flight fallback attempt
completes, successfully or not. -/
theorem C2_amended_reset_discipline (st : Fb.FbState) (e : Fb.FbEv) :
    (∀ s : Side, ((Fb.stepFb st e).chan s).retries = 0 →
      (st.chan s).retries = 0 ∨ e.isAssetChange = true) ∧
    (∀ s : Side, (st.chan s).active = true → ((Fb.stepFb st e).chan s).active = false →
      e.isAssetChange = true ∨ e.completesFlight s = true) ∧
    (∀ l r, e = Fb.FbEv.assetChange l r →
      ∀ s : Side, ((Fb.stepFb st e).chan s).retries = 0 ∧
        ((Fb.stepFb st e).chan s).active = false) := by
  refine ⟨fun s => Fb.retries_reset_only_on_assetChange st e s,
    fun s => Fb.active_clear_only_on_assetChange_or_completion st e s,
    fun l r hlr s => ?_⟩
  subst hlr
  exact Fb.assetChange_resets st l r s


theorem Fb.chan_setChan_self (st : FbState) (t : Side) (c : ChanFb) :
    (st.setChan t c).chan t = c := by
  rw [chan_setChan]; simp

theorem Fb.chan_setChan_other (st : FbState) (t : Side) (c : ChanFb) :
    (st.setChan t c).chan t.other = st.chan t.other := by
  rw [chan_setChan]
  have h : t.other ≠ t := by cases t <;> simp [Side.other]
  simp [h]

/-- Evaluating the fetch-success continuation when the channel was playing
at the moment of failure. -/
theorem Fb.fetchOk_eval_true (st : FbState) (s : Side) (fp : String)
    (hfl : (st.chan s).flight = some (.awaitingFetch true)) :
    Fb.stepFb st (.fetchOk s fp) =
      st.setChan s { st.chan s with src := fp, flight := some .awaitingReady } := by
  simp [Fb.stepFb, hfl]

/-- Evaluating the fetch-success continuation when the channel was not
playing at the moment of failure. -/
theorem Fb.fetchOk_eval_false (st : FbState) (s : Side) (fp : String)
    (hfl : (st.chan s).flight = some (.awaitingFetch false)) :
    Fb.stepFb st (.fetchOk s fp) =
      st.setChan s { st.chan s with src := fp, flight := none, active := false } := by
  simp [Fb.stepFb, hfl]

/-- Evaluating the abandon path: the replacement failed to become playable. -/
theorem Fb.canplayFail_eval (y : FbState) (s : Side)
    (h : (y.chan s).flight = some .awaitingReady) :
    ((Fb.stepFb y (.canplayFail s)).chan s).playing = false ∧
    ((Fb.stepFb y (.canplayFail s)).chan s).active = false ∧
    ((Fb.stepFb y (.canplayFail s)).chan s).flight = none ∧
    ((Fb.stepFb y (.canplayFail s)).chan s).fetchCount = (y.chan s).fetchCount := by
  simp [Fb.stepFb, h, Fb.chan_setChan_self]

/-- Evaluating the resume path: the replacement became playable and played. -/
theorem Fb.resume_eval (y : FbState) (s : Side)
    (h : (y.chan s).flight = some .awaitingReady) :
    ((Fb.stepFb (Fb.stepFb y (.canplayOk s)) (.playOk s)).chan s).playing = true := by
  have heq : Fb.stepFb y (.canplayOk s) =
      y.setChan s { y.chan s with flight := some .awaitingPlay } := by
    simp [Fb.stepFb, h]
  rw [heq]
  have h2 : ((y.setChan s { y.chan s with flight := some .awaitingPlay }).chan s).flight =
      some Fb.Stage.awaitingPlay := by rw [Fb.chan_setChan_self]
  simp [Fb.stepFb, h2, Fb.chan_setChan_self]

/-- An accepted failure report captures the channel's playing flag at the
moment of failure as the `wasPlaying` of the flight it starts. -/
theorem Fb.errorEv_captures_playing (st₀ : FbState) (t : Side) :
    ((Fb.stepFb st₀ (.errorEv t)).chan t).flight =
        some (Stage.awaitingFetch (st₀.chan t).playing) ∨
    Fb.stepFb st₀ (.errorEv t) = st₀ := by
  simp only [Fb.stepFb]
  split
  · exact Or.inr rfl
  split
  · exact Or.inr rfl
  split
  · exact Or.inr rfl
  · left
    rw [Fb.chan_setChan_self]

/-- C4: when the Fallback Resolver returns a replacement for a failed
channel, the Asset Reference is swapped in place on that same channel (the
other channel, the retry counter and the request count are untouched); the
resume path is entered exactly when the channel was playing at the moment of
failure (the flag the failure report captured); if the replacement itself
fails to become playable the attempt is abandoned with the channel not
playing, and if it becomes playable and plays, the channel is playing again. -/
theorem C4_fallback_replacement (st st' : Fb.FbState) (s : Side) (w : Bool) (fp : String)
    (hfl : (st.chan s).flight = some (.awaitingFetch w))
    (hst' : st' = Fb.stepFb st (.fetchOk s fp)) :
    (st'.chan s).src = fp ∧
    st'.chan s.other = st.chan s.other ∧
    (st'.chan s).retries = (st.chan s).retries ∧
    (st'.chan s).fetchCount = (st.chan s).fetchCount ∧
    (st'.chan s).flight = (if w then some Fb.Stage.awaitingReady else none) ∧
    (w = false → (st'.chan s).playing = (st.chan s).playing ∧ (st'.chan s).active = false) ∧
    (w = true →
      ((Fb.stepFb st' (.canplayFail s)).chan s).playing = false ∧
      ((Fb.stepFb st' (.canplayFail s)).chan s).active = false ∧
      ((Fb.stepFb st' (.canplayFail s)).chan s).flight = none ∧
      ((Fb.stepFb st' (.canplayFail s)).chan s).fetchCount = (st.chan s).fetchCount ∧
      ((Fb.stepFb (Fb.stepFb st' (.canplayOk s)) (.playOk s)).chan s).playing = true) ∧
    (∀ (st₀ : Fb.FbState) (t : Side),
      ((Fb.stepFb st₀ (.errorEv t)).chan t).flight =
          some (Fb.Stage.awaitingFetch (st₀.chan t).playing) ∨
      Fb.stepFb st₀ (.errorEv t) = st₀) := by
  subst hst'
  cases w with
  | false =>
    rw [Fb.fetchOk_eval_false st s fp hfl]
    rw [Fb.chan_setChan_other]
    refine ⟨?_, rfl, ?_, ?_, ?_, ?_, ?_, fun st₀ t => Fb.errorEv_captures_playing st₀ t⟩
    · simp [Fb.chan_setChan_self]
    · simp [Fb.chan_setChan_self]
    · simp [Fb.chan_setChan_self]
    · simp [Fb.chan_setChan_self]
    · intro _
      simp [Fb.chan_setChan_self]
    · intro hw
      exact absurd hw (by decide)
  | true =>
    rw [Fb.fetchOk_eval_true st s fp hfl]
    have hready : ((st.setChan s
        { st.chan s with src := fp, flight := some Fb.Stage.awaitingReady }).chan s).flight =
        some Fb.Stage.awaitingReady := by rw [Fb.chan_setChan_self]
    obtain ⟨hp, hac, hfli, hfc⟩ := Fb.canplayFail_eval _ s hready
    have hres := Fb.resume_eval _ s hready
    rw [Fb.chan_setChan_other]
    refine ⟨?_, rfl, ?_, ?_, ?_, ?_, ?_, fun st₀ t => Fb.errorEv_captures_playing st₀ t⟩
    · simp [Fb.chan_setChan_self]
    · simp [Fb.chan_setChan_self]
    · simp [Fb.chan_setChan_self]
    · simp [Fb.chan_setChan_self]
    · intro hw
      exact absurd hw (by decide)
    · intro _
      refine ⟨hp, hac, hfli, ?_, hres⟩
      rw [hfc, Fb.chan_setChan_self]

/-- Witness for C4 at a concrete input: the left channel failed while
playing, and the resolver answers with a concrete replacement path. -/
theorem C4_fallback_replacement_witness :
    (Fb.fbC4After.chan .left).src = "/audio/Real/Obama/c.wav" ∧
    Fb.fbC4After.chan Side.left.other = Fb.fbPlayingFlight.chan Side.left.other ∧
    (Fb.fbC4After.chan .left).retries = (Fb.fbPlayingFlight.chan .left).retries ∧
    (Fb.fbC4After.chan .left).fetchCount = (Fb.fbPlayingFlight.chan .left).fetchCount ∧
    (Fb.fbC4After.chan .left).flight =
      (if true then some Fb.Stage.awaitingReady else none) ∧
    (true = false → (Fb.fbC4After.chan .left).playing =
      (Fb.fbPlayingFlight.chan .left).playing ∧ (Fb.fbC4After.chan .left).active = false) ∧
    (true = true →
      ((Fb.stepFb Fb.fbC4After (.canplayFail .left)).chan .left).playing = false ∧
      ((Fb.stepFb Fb.fbC4After (.canplayFail .left)).chan .left).active = false ∧
      ((Fb.stepFb Fb.fbC4After (.canplayFail .left)).chan .left).flight = none ∧
      ((Fb.stepFb Fb.fbC4After (.canplayFail .left)).chan .left).fetchCount =
        (Fb.fbPlayingFlight.chan .left).fetchCount ∧
      ((Fb.stepFb (Fb.stepFb Fb.fbC4After (.canplayOk .left)) (.playOk .left)).chan
        .left).playing = true) ∧
    (∀ (st₀ : Fb.FbState) (t : Side),
      ((Fb.stepFb st₀ (.errorEv t)).chan t).flight =
          some (Fb.Stage.awaitingFetch (st₀.chan t).playing) ∨
      Fb.stepFb st₀ (.errorEv t) = st₀) :=
  C4_fallback_replacement Fb.fbPlayingFlight Fb.fbC4After .left true
    "/audio/Real/Obama/c.wav" (by decide) rfl


end FbTheorems

section PlayTheorems

open PlayM

theorem PlayM.chan_set (st : PlayState) (t s : Side) (c : Chan) :
    (st.setChan t c).chan s = if s = t then c else st.chan s := by
  cases s <;> cases t <;> simp [PlayState.setChan, PlayState.chan]

theorem PlayM.chan_set_self (st : PlayState) (t : Side) (c : Chan) :
    (st.setChan t c).chan t = c := by
  rw [chan_set]; simp

theorem PlayM.side_eq_other (u s : Side) (h : u ≠ s) : u = s.other := by
  cases u <;> cases s <;> first | rfl | exact absurd rfl h

theorem PlayM.stopSide_chan_self (st : PlayState) (s : Side) :
    (stopSide st s).chan s =
      { st.chan s with paused := true, pending := [], playing := false } := by
  cases s <;> rfl

theorem PlayM.stopSide_chan_ne (st : PlayState) (t u : Side) (h : u ≠ t) :
    (stopSide st t).chan u = st.chan u := by
  simp only [stopSide, chan_set]
  rw [if_neg h]

theorem PlayM.stopSide_token (st : PlayState) (s : Side) :
    (stopSide st s).playRequestId = st.playRequestId := by
  cases s <;> rfl

theorem PlayM.issuePlay_chan_self (st : PlayState) (s : Side) :
    (issuePlay st s).chan s =
      { st.chan s with paused := false,
                       pending := (st.chan s).pending ++
                         [⟨st.playRequestId + 1, st.callClock + 1⟩],
                       lastCall := st.callClock + 1 } := by
  cases s <;> rfl

theorem PlayM.issuePlay_chan_other (st : PlayState) (s : Side) :
    (issuePlay st s).chan s.other =
      { st.chan s.other with paused := true, pending := [], playing := false } := by
  cases s <;> rfl

theorem PlayM.issuePlay_token (st : PlayState) (s : Side) :
    (issuePlay st s).playRequestId = st.playRequestId + 1 := by
  cases s <;> rfl

theorem PlayM.pauseSide_chan_self (st : PlayState) (s : Side) :
    (pauseSide st s).chan s =
      { st.chan s with paused := true, pending := [], playing := false,
                       lastCall := st.callClock + 1 } := by
  cases s <;> rfl

theorem PlayM.pauseSide_chan_ne (st : PlayState) (t u : Side) (h : u ≠ t) :
    (pauseSide st t).chan u = st.chan u := by
  rw [side_eq_other u t h]
  cases t <;> rfl

theorem PlayM.pauseSide_token (st : PlayState) (s : Side) :
    (pauseSide st s).playRequestId = st.playRequestId := by
  cases s <;> rfl

theorem PlayM.settle_chan_self (st : PlayState) (s : Side) (id : Nat) :
    (settle st s id).chan s =
      { st.chan s with pending := (st.chan s).pending.filter (fun r => r.id ≠ id) } := by
  cases s <;> rfl

theorem PlayM.settle_chan_ne (st : PlayState) (t u : Side) (id : Nat) (h : u ≠ t) :
    (settle st t id).chan u = st.chan u := by
  simp only [settle, chan_set]
  rw [if_neg h]

theorem PlayM.settle_token (st : PlayState) (s : Side) (id : Nat) :
    (settle st s id).playRequestId = st.playRequestId := by
  cases s <;> rfl

theorem PlayM.stopAll_pending (st : PlayState) (b : Bool) (u : Side) :
    (({ stopAll st with selected := b } : PlayState).chan u).pending = [] := by
  cases u <;> rfl

theorem PlayM.stopAll_token (st : PlayState) (b : Bool) :
    ({ stopAll st with selected := b } : PlayState).playRequestId = st.playRequestId := by
  rfl

theorem PlayM.token_set (st : PlayState) (t : Side) (c : Chan) :
    (st.setChan t c).playRequestId = st.playRequestId := by
  cases t <;> rfl

theorem PlayM.inv_issuePlay (st : PlayState) (s : Side) (h : Inv st) :
    Inv (issuePlay st s) := by
  intro u r hr
  rw [issuePlay_token]
  by_cases hus : u = s
  · subst hus
    rw [issuePlay_chan_self] at hr ⊢
    simp only [List.mem_append, List.mem_singleton] at hr
    rcases hr with hr | hr
    · obtain ⟨hle, _⟩ := h u r hr
      exact ⟨by omega, fun hid => by omega⟩
    · subst hr
      exact ⟨Nat.le_refl _, fun _ => rfl⟩
  · rw [side_eq_other u s hus] at hr
    rw [issuePlay_chan_other] at hr
    simp at hr

theorem PlayM.inv_step (st : PlayState) (e : PlayEv) (h : Inv st) : Inv (stepPlay st e) := by
  cases e with
  | togglePlay s =>
    simp only [stepPlay]
    split
    · exact h
    split
    · exact inv_issuePlay st s h
    · intro u r hr
      rw [pauseSide_token]
      by_cases hus : u = s
      · subst hus
        rw [pauseSide_chan_self] at hr
        simp at hr
      · rw [pauseSide_chan_ne st s u hus] at hr ⊢
        exact h u r hr
  | replay s =>
    simp only [stepPlay]
    split
    · exact h
    · exact inv_issuePlay st s h
  | resolve s id =>
    simp only [stepPlay]
    split
    · split
      · intro u r hr
        rw [token_set, settle_token]
        by_cases hus : u = s
        · subst hus
          rw [chan_set_self] at hr ⊢
          simp only [] at hr
          rw [settle_chan_self] at hr
          simp only [List.mem_filter] at hr
          have hmem : r ∈ (st.chan u).pending := hr.1
          obtain ⟨hle, hcall⟩ := h u r hmem
          refine ⟨hle, fun hid => ?_⟩
          rw [hcall hid, settle_chan_self]
        · rw [chan_set, if_neg hus, settle_chan_ne st s u id hus] at hr ⊢
          exact h u r hr
      · intro u r hr
        rw [settle_token]
        by_cases hus : u = s
        · subst hus
          rw [settle_chan_self] at hr ⊢
          simp only [List.mem_filter] at hr
          have hmem : r ∈ (st.chan u).pending := hr.1
          obtain ⟨hle, hcall⟩ := h u r hmem
          exact ⟨hle, fun hid => hcall hid⟩
        · rw [settle_chan_ne st s u id hus] at hr ⊢
          exact h u r hr
    · exact h
  | reject s id =>
    intro u r hr
    simp only [stepPlay] at hr ⊢
    rw [settle_token]
    by_cases hus : u = s
    · subst hus
      rw [settle_chan_self] at hr ⊢
      simp only [List.mem_filter] at hr
      have hmem : r ∈ (st.chan u).pending := hr.1
      obtain ⟨hle, hcall⟩ := h u r hmem
      exact ⟨hle, fun hid => hcall hid⟩
    · rw [settle_chan_ne st s u id hus] at hr ⊢
      exact h u r hr
  | ended s =>
    intro u r hr
    simp only [stepPlay] at hr ⊢
    rw [token_set]
    by_cases hus : u = s
    · subst hus
      rw [chan_set_self] at hr ⊢
      exact h u r hr
    · rw [chan_set, if_neg hus] at hr ⊢
      exact h u r hr
  | select s =>
    simp only [stepPlay]
    split
    · exact h
    · intro u r hr
      rw [stopAll_pending] at hr
      simp at hr
  | roundChange =>
    intro u r hr
    simp only [stepPlay] at hr
    rw [stopAll_pending] at hr
    simp at hr


theorem PlayM.settle_playing (st : PlayState) (s u : Side) (id : Nat) :
    ((settle st s id).chan u).playing = (st.chan u).playing := by
  by_cases hus : u = s
  · subst hus; rw [settle_chan_self]
  · rw [settle_chan_ne st s u id hus]

theorem PlayM.inv_init : Inv initPlay := by
  intro s r hr
  cases s <;> simp [initPlay, initChan, PlayState.chan] at hr

theorem PlayM.inv_run (st : PlayState) (tr : List PlayEv) (h : Inv st) :
    Inv (runPlay st tr) := by
  induction tr generalizing st with
  | nil => exact h
  | cons e tr ih =>
    simp only [runPlay, List.foldl_cons]
    exact ih (stepPlay st e) (inv_step st e h)

/-- C1: only the most recent play()/pause() call's resolution may change a
channel's observable playing state.  (i) A play resolution whose captured
token differs from the current `playRequestId` — a stale resolution, already
superseded by a newer play call — leaves both channels' playing flags exactly
as they were: it is dropped, never applied.  (ii) In every reachable state, a
live pending request that carries the current token was issued by the most
recent play/pause call on its channel (its ghost call index is the channel's
`lastCall`), so a resolution that passes the token check is the most recent
call's: no newer play()/pause() call has superseded it — a newer call on the
same channel either bumps the token or pauses the element, which rejects the
pending promise.  (iii) The current call's resolution, while its promise is
live and the element un-paused, does set its channel playing. -/
theorem C1_stale_play_resolutions_dropped (tr : List PlayM.PlayEv)
    (st : PlayM.PlayState) (hst : st = PlayM.runPlay PlayM.initPlay tr)
    (s : Side) (id : Nat) :
    (id ≠ st.playRequestId →
      ((PlayM.stepPlay st (.resolve s id)).chan .left).playing =
        (st.chan .left).playing ∧
      ((PlayM.stepPlay st (.resolve s id)).chan .right).playing =
        (st.chan .right).playing) ∧
    (∀ r ∈ (st.chan s).pending, r.id = st.playRequestId →
      r.call = (st.chan s).lastCall) ∧
    (id = st.playRequestId →
      ((st.chan s).pending.any fun r => r.id == id) = true →
      (st.chan s).paused = false →
      ((PlayM.stepPlay st (.resolve s id)).chan s).playing = true) := by
  refine ⟨?_, ?_, ?_⟩
  · intro hne
    simp only [PlayM.stepPlay]
    split
    · rw [if_neg (fun he => hne he.symm)]
      exact ⟨PlayM.settle_playing st s .left id, PlayM.settle_playing st s .right id⟩
    · exact ⟨rfl, rfl⟩
  · subst hst
    have hinv := PlayM.inv_run PlayM.initPlay tr PlayM.inv_init
    exact fun r hr hid => (hinv s r hr).2 hid
  · intro hid hany hp
    simp only [PlayM.stepPlay]
    have hcond : (((st.chan s).pending.any fun r => r.id == id) &&
        !(st.chan s).paused) = true := by
      rw [hany, hp]; rfl
    rw [if_pos hcond, if_pos hid.symm, PlayM.chan_set_self]

/-- Witness for C1 at a concrete input: the state after one
`togglePlay('left')`, whose single pending request carries token 1. -/
theorem C1_stale_play_resolutions_dropped_witness :
    (1 ≠ PlayM.playWit.playRequestId →
      ((PlayM.stepPlay PlayM.playWit (.resolve .left 1)).chan .left).playing =
        (PlayM.playWit.chan .left).playing ∧
      ((PlayM.stepPlay PlayM.playWit (.resolve .left 1)).chan .right).playing =
        (PlayM.playWit.chan .right).playing) ∧
    (∀ r ∈ (PlayM.playWit.chan .left).pending, r.id = PlayM.playWit.playRequestId →
      r.call = (PlayM.playWit.chan .left).lastCall) ∧
    (1 = PlayM.playWit.playRequestId →
      ((PlayM.playWit.chan .left).pending.any fun r => r.id == 1) = true →
      (PlayM.playWit.chan .left).paused = false →
      ((PlayM.stepPlay PlayM.playWit (.resolve .left 1)).chan .left).playing = true) :=
  C1_stale_play_resolutions_dropped [.togglePlay .left] PlayM.playWit rfl .left 1

end PlayTheorems

section ResolverTheorems

open Resolver

/-- C9: for a well-formed request (non-empty celebrity, category `Real` or
`Cloned`), the endpoint answers an error exactly when the celebrity's folder
for that category is missing or holds no `.wav` file; whenever at least one
`.wav` file exists it always answers a `filePath`; and when the only `.wav`
file is the excluded one, it answers that same excluded (broken) asset
rather than an empty-candidate error. -/
theorem C9_resolver_error_conditions (fsys : Resolver.AudioFs)
    (celebrity category : String) (exclude : Option String) (rand : Nat)
    (hcel : celebrity ≠ "")
    (hcat : category = "Real" ∨ category = "Cloned") :
    ((∃ status, Resolver.audioFilesEndpoint fsys celebrity category exclude rand =
        .err status) ↔
      (Resolver.lookupDir (fsys.dirsFor category) (Resolver.basename celebrity) = none ∨
       ∃ files, Resolver.lookupDir (fsys.dirsFor category) (Resolver.basename celebrity) =
          some files ∧ files.filter Resolver.isWav = [])) ∧
    (∀ files, Resolver.lookupDir (fsys.dirsFor category) (Resolver.basename celebrity) =
        some files → files.filter Resolver.isWav ≠ [] →
      ∃ fp, Resolver.audioFilesEndpoint fsys celebrity category exclude rand = .ok fp) ∧
    (∀ files ex, Resolver.lookupDir (fsys.dirsFor category) (Resolver.basename celebrity) =
        some files → exclude = some ex → ex ≠ "" →
      files.filter Resolver.isWav = [Resolver.basename ex] →
      Resolver.audioFilesEndpoint fsys celebrity category exclude rand =
        .ok ("/audio/" ++ category ++ "/" ++ Resolver.basename celebrity ++ "/" ++
          Resolver.basename ex)) := by
  have hcat2 : ¬(category ≠ "Real" ∧ category ≠ "Cloned") := by
    rcases hcat with h | h <;> simp [h]
  cases hL : Resolver.lookupDir (fsys.dirsFor category) (Resolver.basename celebrity) with
  | none =>
    have hend : Resolver.audioFilesEndpoint fsys celebrity category exclude rand =
        .err 404 := by
      simp [Resolver.audioFilesEndpoint, hcel, hcat2, hL]
    refine ⟨⟨fun _ => Or.inl rfl, fun _ => ⟨404, hend⟩⟩, ?_, ?_⟩
    · intro files hf
      simp at hf
    · intro files ex hf
      simp at hf
  | some files₀ =>
    by_cases hwav : files₀.filter Resolver.isWav = []
    · have hend : Resolver.audioFilesEndpoint fsys celebrity category exclude rand =
          .err 404 := by
        simp [Resolver.audioFilesEndpoint, hcel, hcat2, hL, hwav]
      refine ⟨⟨fun _ => Or.inr ⟨files₀, rfl, hwav⟩, fun _ => ⟨404, hend⟩⟩, ?_, ?_⟩
      · intro files hf hne
        injection hf with hf
        subst hf
        exact absurd hwav hne
      · intro files ex hf _ _ hfl
        injection hf with hf
        subst hf
        rw [hwav] at hfl
        simp at hfl
    · have hie : (files₀.filter Resolver.isWav).isEmpty = false := by
        cases hfl2 : files₀.filter Resolver.isWav with
        | nil => exact absurd hfl2 hwav
        | cons a l => rfl
      have hok : ∃ fp, Resolver.audioFilesEndpoint fsys celebrity category exclude rand =
          .ok fp := by
        simp [Resolver.audioFilesEndpoint, hcel, hcat2, hL, hie]
      refine ⟨⟨?_, ?_⟩, fun _ _ _ => hok, ?_⟩
      · rintro ⟨status, habs⟩
        obtain ⟨fp, hfp⟩ := hok
        rw [hfp] at habs
        cases habs
      · rintro (h | ⟨files, hf, hfl⟩)
        · cases h
        · injection hf with hf
          subst hf
          exact absurd hfl hwav
      · intro files ex hf hexc hexne hfl
        injection hf with hf
        subst hf
        subst hexc
        simp [Resolver.audioFilesEndpoint, hcel, hcat2, hL, hie, hexne, hfl, Nat.mod_one]

/-- Witness for C9 at a concrete input: Obama's Real folder holds only the
excluded clip, and the excluded clip itself comes back. -/
theorem C9_resolver_error_conditions_witness :
    ((∃ status, Resolver.audioFilesEndpoint Resolver.resWitFs "Obama" "Real"
        (some "/audio/Real/Obama/clip01.wav") 5 = .err status) ↔
      (Resolver.lookupDir (Resolver.resWitFs.dirsFor "Real")
          (Resolver.basename "Obama") = none ∨
       ∃ files, Resolver.lookupDir (Resolver.resWitFs.dirsFor "Real")
          (Resolver.basename "Obama") = some files ∧
          files.filter Resolver.isWav = [])) ∧
    (∀ files, Resolver.lookupDir (Resolver.resWitFs.dirsFor "Real")
        (Resolver.basename "Obama") = some files → files.filter Resolver.isWav ≠ [] →
      ∃ fp, Resolver.audioFilesEndpoint Resolver.resWitFs "Obama" "Real"
        (some "/audio/Real/Obama/clip01.wav") 5 = .ok fp) ∧
    (∀ files ex, Resolver.lookupDir (Resolver.resWitFs.dirsFor "Real")
        (Resolver.basename "Obama") = some files →
      (some "/audio/Real/Obama/clip01.wav" : Option String) = some ex → ex ≠ "" →
      files.filter Resolver.isWav = [Resolver.basename ex] →
      Resolver.audioFilesEndpoint Resolver.resWitFs "Obama" "Real"
        (some "/audio/Real/Obama/clip01.wav") 5 =
        .ok ("/audio/" ++ "Real" ++ "/" ++ Resolver.basename "Obama" ++ "/" ++
          Resolver.basename ex)) :=
  C9_resolver_error_conditions Resolver.resWitFs "Obama" "Real"
    (some "/audio/Real/Obama/clip01.wav") 5 (by decide) (Or.inl rfl)

end ResolverTheorems
